import Mathlib

/-!
payment-service: idempotent payment processing

A shallow embedding of the payment core of the repository:

* `internal/entity/payment.go`      : `Payment`, the status constants;
* `internal/usecase/interfaces.go`  : `PaymentRepository`, `PaymentRequest`,
  `PaymentResponse`, the sentinel errors;
* `internal/repository/payment.go`  : `InMemoryPaymentRepository`;
* `internal/usecase/payment.go`     : `validateRequest`, `ProcessPayment`.
* `internal/handler/payment.go`     : `PaymentHandler.ProcessPayment`.

Conventions of the embedding.

* A Go `float64` is its IEEE 754 binary64 bit fields; the only float operation
  of the source is the comparison `req.Amount <= 0`.
* A Go `error` is a value of `GoError`, `nil` is `none`.
* A Go pointer that may be `nil` is an `Option`; dereferencing `nil` is a
  run-time panic, which is the outer `none` of `ProcessPayment`'s result.
* `time.Now()` is an explicit argument: the instant the clock would return.
* The use case is written against the repository interface, as in the source,
  and is instantiated with the in-memory repository.
* The handler is written against the use case interface. The result of
  decoding the request body and the bytes the JSON encoder produces for a
  response are arguments: `encoding/json` is not part of the repository.
-/

namespace PaymentService

/-! ## float64 -/

/-- An IEEE 754 binary64 value, given by its three bit fields. -/
structure Float64 where
  /-- the sign bit -/
  sign : Bool
  /-- the 11 bits of the biased exponent -/
  exponent : Fin 2048
  /-- the 52 bits of the fraction -/
  mantissa : Fin 4503599627370496
deriving DecidableEq

namespace Float64

/-- Not a number: all exponent bits set and a non-zero fraction. -/
def isNaN (x : Float64) : Bool :=
  x.exponent.val == 2047 && x.mantissa.val != 0

/-- Positive or negative zero. -/
def isZero (x : Float64) : Bool :=
  x.exponent.val == 0 && x.mantissa.val == 0

/-- The Go comparison `x <= 0`: false on NaN, otherwise true exactly for the
zeros and for the values with the sign bit set. -/
def leZero (x : Float64) : Bool :=
  !x.isNaN && (x.sign || x.isZero)

/-- The Go comparison `x > 0`: false on NaN, otherwise true exactly for the
non-zero values with a clear sign bit. -/
def gtZero (x : Float64) : Bool :=
  !x.isNaN && !x.sign && !x.isZero

/-- The rational value of a finite float, `none` for NaN and the infinities. -/
def toRat (x : Float64) : Option ℚ :=
  if x.exponent.val = 2047 then none
  else
    let m : ℚ :=
      if x.exponent.val = 0 then (x.mantissa.val : ℚ) * (2 : ℚ) ^ (-1074 : ℤ)
      else ((4503599627370496 + x.mantissa.val : ℕ) : ℚ) * (2 : ℚ) ^ ((x.exponent.val : ℤ) - 1075)
    some (if x.sign then -m else m)

/-- The constant `0`. -/
def zero : Float64 := { sign := false, exponent := 0, mantissa := 0 }

/-- The constant `-1`. -/
def negOne : Float64 := { sign := true, exponent := 1023, mantissa := 0 }

/-- The float64 nearest to `0.01` (bits `0x3F847AE147AE147B`). -/
def oneCent : Float64 := { sign := false, exponent := 1016, mantissa := 1261007895663739 }

/-- The constant `100.50` of the tests (bits `0x4059200000000000`). -/
def hundredAndHalf : Float64 := { sign := false, exponent := 1029, mantissa := 2568459162484736 }

/-- The constant `-10.50` of the tests (bits `0xC025000000000000`). -/
def negTenAndHalf : Float64 := { sign := true, exponent := 1026, mantissa := 1407374883553280 }

/-- A quiet NaN (bits `0x7FF8000000000001`), the value of `math.NaN()`. -/
def nan : Float64 := { sign := false, exponent := 2047, mantissa := 2251799813685249 }

/-- Positive infinity. -/
def posInf : Float64 := { sign := false, exponent := 2047, mantissa := 0 }

end Float64

/-! ## entity -/

/-- The instant returned by `time.Now()`, as nanoseconds since the Unix epoch. -/
structure Time where
  unixNano : Int
deriving DecidableEq

/-- `entity.StatusCompleted` -/
def StatusCompleted : String := "completed"

/-- `entity.StatusFailed` -/
def StatusFailed : String := "failed"

/-- `entity.Payment` -/
structure Payment where
  TransactionID : String
  UserID : String
  Amount : Float64
  Status : String
  CreatedAt : Time
deriving DecidableEq

/-! ## usecase: interfaces -/

/-- `usecase.PaymentRequest` -/
structure PaymentRequest where
  UserID : String
  Amount : Float64
  TransactionID : String
deriving DecidableEq

/-- `usecase.PaymentResponse` -/
structure PaymentResponse where
  TransactionID : String
  UserID : String
  Amount : Float64
  Status : String
  Message : String
deriving DecidableEq

/-- A Go `error` value: the four sentinel errors of `usecase/interfaces.go`,
and any other error a repository implementation may return. -/
inductive GoError where
  | ErrInvalidAmount
  | ErrInvalidUserID
  | ErrInvalidTransaction
  | ErrDuplicateTransaction
  | other (msg : String)
deriving DecidableEq

/-- The method `Error()` of an error value. -/
def GoError.Error : GoError → String
  | .ErrInvalidAmount => "amount must be greater than 0"
  | .ErrInvalidUserID => "user ID cannot be empty"
  | .ErrInvalidTransaction => "transaction ID cannot be empty"
  | .ErrDuplicateTransaction => "transaction already processed"
  | .other msg => msg

/-- The interface `usecase.PaymentRepository` over a repository state `σ`:
every method reads the state and returns its results with the next state. -/
structure PaymentRepository (σ : Type) where
  Store : Payment → σ → Option GoError × σ
  GetByTransactionID : String → σ → (Option Payment × Option GoError) × σ
  Exists : String → σ → Bool × σ

/-! ## repository: the in-memory implementation -/

/-- `repository.InMemoryPaymentRepository`: the Go map `payments`. Each method
holds the mutex for its whole body, so a method is one atomic step. -/
structure InMemoryPaymentRepository where
  payments : String → Option Payment

/-- `NewInMemoryPaymentRepository`: the empty map. -/
def NewInMemoryPaymentRepository : InMemoryPaymentRepository :=
  { payments := fun _ => none }

/-- `Store`: `r.payments[payment.TransactionID] = payment; return nil`. -/
def InMemoryPaymentRepository.Store (r : InMemoryPaymentRepository) (payment : Payment) :
    Option GoError × InMemoryPaymentRepository :=
  (none, { payments := fun k => if k = payment.TransactionID then some payment else r.payments k })

/-- `GetByTransactionID`: `(nil, nil)` when the key is absent, else the record. -/
def InMemoryPaymentRepository.GetByTransactionID (r : InMemoryPaymentRepository)
    (transactionID : String) : Option Payment × Option GoError :=
  match r.payments transactionID with
  | none => (none, none)
  | some payment => (some payment, none)

/-- `Exists`: whether the key is in the map. -/
def InMemoryPaymentRepository.Exists (r : InMemoryPaymentRepository)
    (transactionID : String) : Bool :=
  match r.payments transactionID with
  | none => false
  | some _ => true

/-- The in-memory repository as an implementation of the interface. -/
def inMemory : PaymentRepository InMemoryPaymentRepository where
  Store := fun payment r => r.Store payment
  GetByTransactionID := fun transactionID r => (r.GetByTransactionID transactionID, r)
  Exists := fun transactionID r => (r.Exists transactionID, r)

/-! ## usecase: ProcessPayment -/

/-- `validateRequest` -/
def validateRequest (req : PaymentRequest) : Option GoError :=
  if req.UserID = "" then some GoError.ErrInvalidUserID
  else if req.TransactionID = "" then some GoError.ErrInvalidTransaction
  else if req.Amount.leZero then some GoError.ErrInvalidAmount
  else none

/-- `ProcessPayment`, with `now` the value of `time.Now()`. The result is
`none` when the call panics on a nil record, else the returned pair and the
repository state. -/
def ProcessPayment {σ : Type} (repo : PaymentRepository σ) (now : Time)
    (req : PaymentRequest) (s : σ) :
    Option ((Option PaymentResponse × Option GoError) × σ) :=
  match validateRequest req with
  | some err =>
    some ((some { TransactionID := req.TransactionID, UserID := req.UserID,
                  Amount := req.Amount, Status := StatusFailed,
                  Message := err.Error }, some err), s)
  | none =>
    match repo.Exists req.TransactionID s with
    | (true, s1) =>
      match repo.GetByTransactionID req.TransactionID s1 with
      | ((_, some err), s2) => some ((none, some err), s2)
      | ((none, none), _) => none
      | ((some existingPayment, none), s2) =>
        some ((some { TransactionID := existingPayment.TransactionID,
                      UserID := existingPayment.UserID,
                      Amount := existingPayment.Amount,
                      Status := existingPayment.Status,
                      Message := "Transaction already processed" }, none), s2)
    | (false, s1) =>
      let payment : Payment :=
        { TransactionID := req.TransactionID, UserID := req.UserID,
          Amount := req.Amount, Status := StatusCompleted, CreatedAt := now }
      match repo.Store payment s1 with
      | (some err, s2) =>
        some ((some { TransactionID := req.TransactionID, UserID := req.UserID,
                      Amount := req.Amount, Status := StatusFailed,
                      Message := "Failed to process payment" }, some err), s2)
      | (none, s2) =>
        some ((some { TransactionID := payment.TransactionID,
                      UserID := payment.UserID,
                      Amount := payment.Amount,
                      Status := payment.Status,
                      Message := "Payment processed successfully" }, none), s2)

/-! ## Observing the repository calls -/

/-- One call of a repository method, as seen at the interface. -/
inductive RepoCall where
  | Store (payment : Payment)
  | GetByTransactionID (transactionID : String)
  | Exists (transactionID : String)
deriving DecidableEq

/-- A repository that behaves like `repo` and appends every method call to a
log, in the order the calls are made (the role `mock.Mock` has in the tests). -/
def recording {σ : Type} (repo : PaymentRepository σ) :
    PaymentRepository (σ × List RepoCall) where
  Store := fun payment s =>
    ((repo.Store payment s.1).1, ((repo.Store payment s.1).2, s.2 ++ [RepoCall.Store payment]))
  GetByTransactionID := fun transactionID s =>
    ((repo.GetByTransactionID transactionID s.1).1,
      ((repo.GetByTransactionID transactionID s.1).2,
        s.2 ++ [RepoCall.GetByTransactionID transactionID]))
  Exists := fun transactionID s =>
    ((repo.Exists transactionID s.1).1,
      ((repo.Exists transactionID s.1).2, s.2 ++ [RepoCall.Exists transactionID]))

/-! ## Sequences of calls -/

/-- Calls of `ProcessPayment` run one after another: the list of each call's
returned pair together with the repository state right after that call;
`none` when a call panics. -/
def runCalls {σ : Type} (repo : PaymentRepository σ) :
    List (Time × PaymentRequest) → σ →
      Option (List ((Option PaymentResponse × Option GoError) × σ))
  | [], _ => some []
  | (now, req) :: rest, s =>
    match ProcessPayment repo now req s with
    | none => none
    | some (r, s1) =>
      match runCalls repo rest s1 with
      | none => none
      | some results => some ((r, s1) :: results)

/-- Calls of `Store` run one after another on the in-memory repository: the
errors returned, in order, and the final repository. -/
def storeAll : List Payment → InMemoryPaymentRepository →
    List (Option GoError) × InMemoryPaymentRepository
  | [], r => ([], r)
  | payment :: rest, r =>
    ((r.Store payment).1 :: (storeAll rest (r.Store payment).2).1,
      (storeAll rest (r.Store payment).2).2)

/-! ## Concurrent calls

Every repository method is atomic (it runs under the repository's mutex), and
a call of `ProcessPayment` makes at most two of them. A call in flight is
therefore at one of the control points below, and a concurrent execution is an
interleaving of the calls' atomic steps. -/

/-- The control point of one call of `ProcessPayment`. -/
inductive Call where
  /-- not started: validation and `repo.Exists` come next -/
  | entry (now : Time) (req : PaymentRequest)
  /-- `Exists` returned true: `repo.GetByTransactionID` comes next -/
  | duplicate (req : PaymentRequest)
  /-- `Exists` returned false: `repo.Store` of the new payment comes next -/
  | create (now : Time) (req : PaymentRequest)
  /-- the call has returned -/
  | returned (response : Option PaymentResponse) (err : Option GoError)
  /-- the call has panicked on a nil record -/
  | panicked
deriving DecidableEq

/-- One atomic step of a call: the code of `ProcessPayment` from the current
control point up to and including the next repository method. -/
def Call.step {σ : Type} (repo : PaymentRepository σ) : Call → σ → Call × σ
  | .entry now req, s =>
    match validateRequest req with
    | some err =>
      (.returned (some { TransactionID := req.TransactionID, UserID := req.UserID,
                         Amount := req.Amount, Status := StatusFailed,
                         Message := err.Error }) (some err), s)
    | none =>
      match repo.Exists req.TransactionID s with
      | (true, s1) => (.duplicate req, s1)
      | (false, s1) => (.create now req, s1)
  | .duplicate req, s =>
    match repo.GetByTransactionID req.TransactionID s with
    | ((_, some err), s1) => (.returned none (some err), s1)
    | ((none, none), s1) => (.panicked, s1)
    | ((some existingPayment, none), s1) =>
      (.returned (some { TransactionID := existingPayment.TransactionID,
                         UserID := existingPayment.UserID,
                         Amount := existingPayment.Amount,
                         Status := existingPayment.Status,
                         Message := "Transaction already processed" }) none, s1)
  | .create now req, s =>
    let payment : Payment :=
      { TransactionID := req.TransactionID, UserID := req.UserID,
        Amount := req.Amount, Status := StatusCompleted, CreatedAt := now }
    match repo.Store payment s with
    | (some err, s1) =>
      (.returned (some { TransactionID := req.TransactionID, UserID := req.UserID,
                         Amount := req.Amount, Status := StatusFailed,
                         Message := "Failed to process payment" }) (some err), s1)
    | (none, s1) =>
      (.returned (some { TransactionID := payment.TransactionID,
                         UserID := payment.UserID,
                         Amount := payment.Amount,
                         Status := payment.Status,
                         Message := "Payment processed successfully" }) none, s1)
  | .returned response err, s => (.returned response err, s)
  | .panicked, s => (.panicked, s)

/-- An interleaving: the calls in flight and the shared repository, advanced by
letting the call at each scheduled index take its next atomic step. -/
def interleave {σ : Type} (repo : PaymentRepository σ) :
    List Nat → List Call × σ → List Call × σ
  | [], cfg => cfg
  | i :: rest, (calls, s) =>
    match calls[i]? with
    | none => interleave repo rest (calls, s)
    | some c => interleave repo rest (calls.set i (c.step repo s).1, (c.step repo s).2)

/-- A call has reached its end. -/
def Call.finished : Call → Bool
  | .returned _ _ => true
  | .panicked => true
  | _ => false

/-- The message of the outcome a call returned, if it returned one. -/
def Call.message : Call → Option String
  | .returned (some response) _ => some response.Message
  | _ => none

/-! ## handler -/

/-- `http.StatusOK` -/
def StatusOK : Nat := 200

/-- `http.StatusBadRequest` -/
def StatusBadRequest : Nat := 400

/-- `http.StatusInternalServerError` -/
def StatusInternalServerError : Nat := 500

/-- An `http.ResponseWriter`, as far as the handler drives it. -/
structure ResponseWriter where
  /-- the header map returned by `Header()` -/
  header : String → Option String
  /-- the status code written, `none` until `WriteHeader` or `Write` has run -/
  status : Option Nat
  /-- the bytes written to the body -/
  body : String

/-- `w.Header().Set(key, value)` -/
def ResponseWriter.HeaderSet (w : ResponseWriter) (key value : String) : ResponseWriter :=
  { w with header := fun k => if k = key then some value else w.header k }

/-- `w.Header().Del(key)` -/
def ResponseWriter.HeaderDel (w : ResponseWriter) (key : String) : ResponseWriter :=
  { w with header := fun k => if k = key then none else w.header k }

/-- `w.WriteHeader(code)`: the first status code written is the one that
counts, a later call changes nothing. -/
def ResponseWriter.WriteHeader (w : ResponseWriter) (code : Nat) : ResponseWriter :=
  match w.status with
  | some _ => w
  | none => { w with status := some code }

/-- `w.Write(bytes)`: writes status 200 first when no status was written. -/
def ResponseWriter.Write (w : ResponseWriter) (bytes : String) : ResponseWriter :=
  { w.WriteHeader StatusOK with body := w.body ++ bytes }

/-- `http.Error(w, error, code)` of the standard library: a plain-text reply. -/
def httpError (w : ResponseWriter) (error : String) (code : Nat) : ResponseWriter :=
  ((((w.HeaderDel "Content-Length").HeaderSet "Content-Type" "text/plain; charset=utf-8").HeaderSet
    "X-Content-Type-Options" "nosniff").WriteHeader code).Write (error ++ "\n")

/-- `handler.PaymentHandler`: the use case behind `PaymentUseCaseInterface`,
over a state `σ`; its result is `none` when the call panics. -/
structure PaymentHandler (σ : Type) where
  paymentUseCase : PaymentRequest → σ → Option ((Option PaymentResponse × Option GoError) × σ)

/-- `PaymentHandler.ProcessPayment`. `decoded` is what decoding the request body
gave (`none` when `Decode` returned an error) and `encode response` the bytes
`json.NewEncoder(w).Encode(response)` writes (`none` when it writes nothing
because the value cannot be encoded). -/
def PaymentHandler.ProcessPayment {σ : Type} (h : PaymentHandler σ)
    (encode : Option PaymentResponse → Option String) (decoded : Option PaymentRequest)
    (w : ResponseWriter) (s : σ) : Option (ResponseWriter × σ) :=
  match decoded with
  | none => some (httpError w "Invalid JSON format" StatusBadRequest, s)
  | some req =>
    match h.paymentUseCase req s with
    | none => none
    | some ((response, err), s1) =>
      let w1 : ResponseWriter :=
        match err with
        | some GoError.ErrInvalidAmount => w.WriteHeader StatusBadRequest
        | some GoError.ErrInvalidUserID => w.WriteHeader StatusBadRequest
        | some GoError.ErrInvalidTransaction => w.WriteHeader StatusBadRequest
        | some _ => w.WriteHeader StatusInternalServerError
        | none => w.WriteHeader StatusOK
      let w2 : ResponseWriter := w1.HeaderSet "Content-Type" "application/json"
      match encode response with
      | some bytes => some (w2.Write bytes, s1)
      | none => some (w2, s1)

/-- The handler of `main`: the use case over the in-memory repository, called
at the instant `now`. -/
def inMemoryHandler (now : Time) : PaymentHandler InMemoryPaymentRepository where
  paymentUseCase := fun req s => ProcessPayment inMemory now req s

/-! ## The shape of persisted records -/

/-- The records of a store are completed payments filed under their own
non-empty transaction ID, with a non-empty user ID and an amount for which the
comparison `Amount <= 0` is false. -/
def WellFormedStore (s : InMemoryPaymentRepository) : Prop :=
  ∀ (k : String) (p : Payment), s.payments k = some p →
    p.Status = "completed" ∧ p.TransactionID = k ∧ p.TransactionID ≠ "" ∧
    p.UserID ≠ "" ∧ p.Amount.leZero = false

/-! ## The float comparison -/

theorem Float64.gtZero_not_leZero (x : Float64) (h : x.gtZero = true) : x.leZero = false := by
  unfold Float64.gtZero at h
  unfold Float64.leZero
  cases hn : x.isNaN <;> cases hs : x.sign <;> cases hz : x.isZero <;> simp_all

theorem Float64.leZero_not_gtZero (x : Float64) (h : x.leZero = true) : x.gtZero = false := by
  unfold Float64.leZero at h
  unfold Float64.gtZero
  cases hn : x.isNaN <;> cases hs : x.sign <;> cases hz : x.isZero <;> simp_all

/-- On the finite floats the two comparisons are the comparisons of the
values: `x <= 0` holds iff the value is at most zero, `x > 0` iff it is
positive. -/
theorem Float64.leZero_iff_toRat (x : Float64) (q : ℚ) (h : x.toRat = some q) :
    (x.leZero = true ↔ q ≤ 0) ∧ (x.gtZero = true ↔ 0 < q) := by
  obtain ⟨sign, e, m⟩ := x
  unfold Float64.toRat at h
  simp only at h
  by_cases he : e.val = 2047
  · simp [he] at h
  · have hnan : Float64.isNaN ⟨sign, e, m⟩ = false := by simp [Float64.isNaN, he]
    simp only [he, if_false, Option.some.injEq] at h
    have hpow1 : (0 : ℚ) < (2 : ℚ) ^ (-1074 : ℤ) := by positivity
    have hpow2 : (0 : ℚ) < (2 : ℚ) ^ ((e.val : ℤ) - 1075) := by positivity
    by_cases he0 : e.val = 0
    · simp only [he0, if_true] at h
      by_cases hm0 : m.val = 0
      · have hq : q = 0 := by
          rw [← h]
          cases sign <;> simp [hm0]
        subst hq
        simp [Float64.leZero, Float64.gtZero, Float64.isZero, hnan, he0, hm0]
      · have hmpos : (0 : ℚ) < (m.val : ℚ) := by
          exact_mod_cast Nat.pos_of_ne_zero hm0
        have hval : (0 : ℚ) < (m.val : ℚ) * (2 : ℚ) ^ (-1074 : ℤ) := mul_pos hmpos hpow1
        cases sign with
        | true =>
          simp only [if_true] at h
          have hq : q < 0 := by rw [← h]; linarith
          simp only [Float64.leZero, Float64.gtZero, Float64.isZero, hnan]
          constructor
          · simp; exact le_of_lt hq
          · simp; exact le_of_lt hq
        | false =>
          simp only [Bool.false_eq_true, if_false] at h
          have hq : 0 < q := by rw [← h]; exact hval
          simp only [Float64.leZero, Float64.gtZero, Float64.isZero, hnan]
          constructor
          · simp [hm0]; exact hq
          · simp [hm0]; exact hq
    · simp only [he0, if_false] at h
      have hmpos : (0 : ℚ) < ((4503599627370496 + m.val : ℕ) : ℚ) := by
        exact_mod_cast Nat.add_pos_left (by norm_num) _
      have hval := mul_pos hmpos hpow2
      cases sign with
      | true =>
        simp only [if_true] at h
        have hq : q < 0 := by rw [← h]; linarith
        simp only [Float64.leZero, Float64.gtZero, Float64.isZero, hnan]
        constructor
        · simp; exact le_of_lt hq
        · simp; exact le_of_lt hq
      | false =>
        simp only [Bool.false_eq_true, if_false] at h
        have hq : 0 < q := by rw [← h]; exact hval
        simp only [Float64.leZero, Float64.gtZero, Float64.isZero, hnan]
        constructor
        · simp [he0]; exact hq
        · simp [he0]; exact hq

/-! ## The three paths of `ProcessPayment` on the in-memory repository -/

theorem ProcessPayment_invalid {σ : Type} (repo : PaymentRepository σ) (now : Time)
    (req : PaymentRequest) (s : σ) (err : GoError) (h : validateRequest req = some err) :
    ProcessPayment repo now req s =
      some ((some { TransactionID := req.TransactionID, UserID := req.UserID,
                    Amount := req.Amount, Status := StatusFailed,
                    Message := err.Error }, some err), s) := by
  unfold ProcessPayment
  rw [h]

theorem ProcessPayment_duplicate (now : Time) (req : PaymentRequest)
    (s : InMemoryPaymentRepository) (P : Payment)
    (hv : validateRequest req = none) (hP : s.payments req.TransactionID = some P) :
    ProcessPayment inMemory now req s =
      some ((some { TransactionID := P.TransactionID, UserID := P.UserID,
                    Amount := P.Amount, Status := P.Status,
                    Message := "Transaction already processed" }, none), s) := by
  unfold ProcessPayment
  simp [hv, inMemory, InMemoryPaymentRepository.Exists,
    InMemoryPaymentRepository.GetByTransactionID, hP]

theorem ProcessPayment_create (now : Time) (req : PaymentRequest)
    (s : InMemoryPaymentRepository)
    (hv : validateRequest req = none) (hP : s.payments req.TransactionID = none) :
    ProcessPayment inMemory now req s =
      some ((some { TransactionID := req.TransactionID, UserID := req.UserID,
                    Amount := req.Amount, Status := StatusCompleted,
                    Message := "Payment processed successfully" }, none),
            (s.Store { TransactionID := req.TransactionID, UserID := req.UserID,
                       Amount := req.Amount, Status := StatusCompleted,
                       CreatedAt := now }).2) := by
  unfold ProcessPayment
  simp [hv, inMemory, InMemoryPaymentRepository.Exists, InMemoryPaymentRepository.Store, hP]

theorem validateRequest_eq_none (req : PaymentRequest) :
    validateRequest req = none ↔
      req.UserID ≠ "" ∧ req.TransactionID ≠ "" ∧ req.Amount.leZero = false := by
  unfold validateRequest
  by_cases hu : req.UserID = "" <;> by_cases ht : req.TransactionID = "" <;>
    cases ha : req.Amount.leZero <;> simp [hu, ht]

theorem validateRequest_of_invalid (req : PaymentRequest)
    (h : req.UserID = "" ∨ req.TransactionID = "" ∨ req.Amount.leZero = true) :
    ∃ err, validateRequest req = some err ∧
      (err = GoError.ErrInvalidUserID ∨ err = GoError.ErrInvalidTransaction ∨
        err = GoError.ErrInvalidAmount) := by
  unfold validateRequest
  by_cases hu : req.UserID = ""
  · exact ⟨_, by simp [hu], Or.inl rfl⟩
  · by_cases ht : req.TransactionID = ""
    · exact ⟨_, by simp [hu, ht], Or.inr (Or.inl rfl)⟩
    · have ha : req.Amount.leZero = true := by
        rcases h with h | h | h
        · exact absurd h hu
        · exact absurd h ht
        · exact h
      exact ⟨_, by simp [hu, ht, ha], Or.inr (Or.inr rfl)⟩

/-! ## Sequences of calls on the in-memory repository -/

theorem existsUnique_of_payments (s : InMemoryPaymentRepository) (k : String) (P : Payment)
    (h : s.payments k = some P) : ∃! p, s.payments k = some p :=
  ⟨P, h, fun _ hq => Option.some.inj (hq.symm.trans h)⟩

theorem runCalls_replay (R : PaymentRequest) (s : InMemoryPaymentRepository) (P : Payment)
    (hv : validateRequest R = none) (hP : s.payments R.TransactionID = some P)
    (nows : List Time) :
    runCalls inMemory (nows.map fun now => (now, R)) s =
      some (nows.map fun _ =>
        ((some { TransactionID := P.TransactionID, UserID := P.UserID,
                 Amount := P.Amount, Status := P.Status,
                 Message := "Transaction already processed" }, none), s)) := by
  induction nows with
  | nil => rfl
  | cons now rest ih =>
    simp only [List.map_cons, runCalls]
    rw [ProcessPayment_duplicate now R s P hv hP]
    simp only [ih]

theorem ProcessPayment_preserves (s : InMemoryPaymentRepository) (now : Time)
    (req : PaymentRequest) :
    ∃ (r : Option PaymentResponse × Option GoError) (s1 : InMemoryPaymentRepository),
      ProcessPayment inMemory now req s = some (r, s1) ∧
      ∀ (k : String) (p : Payment), s.payments k = some p → s1.payments k = some p := by
  cases hv : validateRequest req with
  | some err => exact ⟨_, s, ProcessPayment_invalid inMemory now req s err hv, fun _ _ h => h⟩
  | none =>
    cases hP : s.payments req.TransactionID with
    | some P => exact ⟨_, s, ProcessPayment_duplicate now req s P hv hP, fun _ _ h => h⟩
    | none =>
      refine ⟨_, _, ProcessPayment_create now req s hv hP, ?_⟩
      intro k p hk
      have hne : k ≠ req.TransactionID := by
        intro h
        rw [h, hP] at hk
        exact Option.noConfusion hk
      simp [InMemoryPaymentRepository.Store, hne, hk]

theorem runCalls_preserves (calls : List (Time × PaymentRequest)) :
    ∀ s : InMemoryPaymentRepository,
      ∃ results : List ((Option PaymentResponse × Option GoError) × InMemoryPaymentRepository),
        runCalls inMemory calls s = some results ∧
        results.length = calls.length ∧
        (∀ x ∈ results, ∀ (k : String) (p : Payment),
          s.payments k = some p → x.2.payments k = some p) ∧
        (∀ (i j : Nat) (x y : (Option PaymentResponse × Option GoError) ×
            InMemoryPaymentRepository),
          i ≤ j → results[i]? = some x → results[j]? = some y →
          ∀ (k : String) (p : Payment), x.2.payments k = some p → y.2.payments k = some p) := by
  induction calls with
  | nil =>
    intro s
    exact ⟨[], rfl, rfl, by simp, by simp⟩
  | cons c rest ih =>
    intro s
    obtain ⟨now, req⟩ := c
    obtain ⟨r, s1, hstep, hkeep⟩ := ProcessPayment_preserves s now req
    obtain ⟨results, hrun, hlen, hfrom, hlater⟩ := ih s1
    refine ⟨(r, s1) :: results, ?_, by simp [hlen], ?_, ?_⟩
    · simp only [runCalls, hstep, hrun]
    · intro x hx k p hk
      rcases List.mem_cons.1 hx with rfl | hx
      · exact hkeep k p hk
      · exact hfrom x hx k p (hkeep k p hk)
    · intro i j x y hij hi hj k p hk
      cases i with
      | zero =>
        simp only [List.getElem?_cons_zero, Option.some.injEq] at hi
        subst hi
        cases j with
        | zero =>
          simp only [List.getElem?_cons_zero, Option.some.injEq] at hj
          subst hj
          exact hk
        | succ j =>
          simp only [List.getElem?_cons_succ] at hj
          exact hfrom y (List.getElem?_mem hj) k p hk
      | succ i =>
        cases j with
        | zero => omega
        | succ j =>
          simp only [List.getElem?_cons_succ] at hi hj
          exact hlater i j x y (by omega) hi hj k p hk

theorem ProcessPayment_success_stored (s0 s1 : InMemoryPaymentRepository) (now0 : Time)
    (req0 : PaymentRequest) (out0 : PaymentResponse)
    (h0 : ProcessPayment inMemory now0 req0 s0 = some ((some out0, none), s1)) :
    validateRequest req0 = none ∧
    ∃ P : Payment, s1.payments req0.TransactionID = some P ∧
      out0.TransactionID = P.TransactionID ∧ out0.UserID = P.UserID ∧
      out0.Amount = P.Amount ∧ out0.Status = P.Status := by
  cases hv : validateRequest req0 with
  | some err =>
    rw [ProcessPayment_invalid inMemory now0 req0 s0 err hv] at h0
    simp at h0
  | none =>
    refine ⟨rfl, ?_⟩
    cases hP : s0.payments req0.TransactionID with
    | some P =>
      rw [ProcessPayment_duplicate now0 req0 s0 P hv hP] at h0
      simp only [Option.some.injEq, Prod.mk.injEq, and_true] at h0
      obtain ⟨hout, hs⟩ := h0
      subst hout hs
      exact ⟨P, hP, rfl, rfl, rfl, rfl⟩
    | none =>
      rw [ProcessPayment_create now0 req0 s0 hv hP] at h0
      simp only [Option.some.injEq, Prod.mk.injEq, and_true] at h0
      obtain ⟨hout, hs⟩ := h0
      subst hout hs
      exact ⟨⟨req0.TransactionID, req0.UserID, req0.Amount, StatusCompleted, now0⟩,
        by simp [InMemoryPaymentRepository.Store], rfl, rfl, rfl, rfl⟩

/-! ## The in-memory repository as a map -/

theorem storeAll_errors (records : List Payment) :
    ∀ r : InMemoryPaymentRepository,
      (storeAll records r).1.length = records.length ∧
      ∀ e ∈ (storeAll records r).1, e = none := by
  induction records with
  | nil => intro r; simp [storeAll]
  | cons p rest ih =>
    intro r
    obtain ⟨hlen, hnone⟩ := ih (r.Store p).2
    refine ⟨by simp [storeAll, hlen], ?_⟩
    intro e he
    simp only [storeAll, List.mem_cons] at he
    rcases he with rfl | he
    · rfl
    · exact hnone e he

theorem storeAll_payments (records : List Payment) :
    ∀ (r : InMemoryPaymentRepository) (k : String),
      (storeAll records r).2.payments k =
        (records.reverse.find? fun p => decide (p.TransactionID = k)).or (r.payments k) := by
  induction records with
  | nil => intro r k; simp [storeAll]
  | cons p rest ih =>
    intro r k
    simp only [storeAll, ih, List.reverse_cons, List.find?_append, Option.or_assoc]
    congr 1
    by_cases h : p.TransactionID = k
    · simp [InMemoryPaymentRepository.Store, h]
    · have h2 : ¬ k = p.TransactionID := fun e => h e.symm
      simp [InMemoryPaymentRepository.Store, h, h2]

/-! ## What every persisted record satisfies -/

theorem ProcessPayment_wellFormed (s s1 : InMemoryPaymentRepository) (now : Time)
    (req : PaymentRequest) (r : Option PaymentResponse × Option GoError)
    (hs : WellFormedStore s) (h : ProcessPayment inMemory now req s = some (r, s1)) :
    WellFormedStore s1 := by
  cases hv : validateRequest req with
  | some err =>
    rw [ProcessPayment_invalid inMemory now req s err hv] at h
    simp only [Option.some.injEq, Prod.mk.injEq] at h
    exact h.2 ▸ hs
  | none =>
    cases hP : s.payments req.TransactionID with
    | some P =>
      rw [ProcessPayment_duplicate now req s P hv hP] at h
      simp only [Option.some.injEq, Prod.mk.injEq] at h
      exact h.2 ▸ hs
    | none =>
      rw [ProcessPayment_create now req s hv hP] at h
      simp only [Option.some.injEq, Prod.mk.injEq] at h
      rw [← h.2]
      have hf := (validateRequest_eq_none req).1 hv
      intro k p hk
      by_cases hkey : k = req.TransactionID
      · simp only [InMemoryPaymentRepository.Store, hkey, if_true, Option.some.injEq] at hk
        subst hk
        exact ⟨rfl, hkey.symm, hf.2.1, hf.1, hf.2.2⟩
      · simp only [InMemoryPaymentRepository.Store, hkey, if_false] at hk
        exact hs k p hk

theorem runCalls_wellFormed (calls : List (Time × PaymentRequest)) :
    ∀ (s : InMemoryPaymentRepository)
      (results : List ((Option PaymentResponse × Option GoError) × InMemoryPaymentRepository)),
      WellFormedStore s → runCalls inMemory calls s = some results →
      ∀ x ∈ results, WellFormedStore x.2 := by
  induction calls with
  | nil =>
    intro s results _ h x hx
    simp only [runCalls, Option.some.injEq] at h
    subst h
    simp at hx
  | cons c rest ih =>
    intro s results hs h x hx
    obtain ⟨now, req⟩ := c
    obtain ⟨r, s1, hstep, _⟩ := ProcessPayment_preserves s now req
    obtain ⟨tail, hrun, _⟩ := runCalls_preserves rest s1
    simp only [runCalls, hstep, hrun, Option.some.injEq] at h
    subst h
    have hs1 := ProcessPayment_wellFormed s s1 now req r hs hstep
    rcases List.mem_cons.1 hx with rfl | hx
    · exact hs1
    · exact ih s1 tail hs1 hrun x hx

/-! ## One call, step by step -/

theorem interleave_single {σ : Type} (repo : PaymentRepository σ) (now : Time)
    (req : PaymentRequest) (s : σ) :
    (interleave repo [0, 0] ([Call.entry now req], s)).1 =
      [match ProcessPayment repo now req s with
        | some (r, _) => Call.returned r.1 r.2
        | none => Call.panicked] ∧
    ∀ (r : Option PaymentResponse × Option GoError) (s1 : σ),
      ProcessPayment repo now req s = some (r, s1) →
      (interleave repo [0, 0] ([Call.entry now req], s)).2 = s1 := by
  simp only [interleave, List.getElem?_cons_zero, List.set_cons_zero, Call.step,
    ProcessPayment]
  cases validateRequest req with
  | some err => simp [Call.step]
  | none =>
    simp only
    rcases hE : repo.Exists req.TransactionID s with ⟨b, s1⟩
    cases b with
    | true =>
      simp only [Call.step]
      rcases hG : repo.GetByTransactionID req.TransactionID s1 with ⟨⟨p, e⟩, s2⟩
      cases e with
      | some err => simp
      | none => cases p <;> simp
    | false =>
      simp only [Call.step]
      rcases hS : repo.Store ⟨req.TransactionID, req.UserID, req.Amount, StatusCompleted,
        now⟩ s1 with ⟨e, s2⟩
      cases e <;> simp

/-! ## Claims -/

/-- C2 (duplicate path): a request that passes validation and whose
TransactionID already has a record `P` in the store is answered with a nil
error and an outcome whose TransactionID, UserID, Amount and Status are those
of `P` and whose Message is "Transaction already processed"; the repository
calls made are `Exists` and `GetByTransactionID` only (no `Store`), and the
store is left unchanged. -/
theorem C2_duplicate_path (s : InMemoryPaymentRepository) (log : List RepoCall) (now : Time)
    (req : PaymentRequest) (P : Payment)
    (hu : req.UserID ≠ "") (ht : req.TransactionID ≠ "") (ha : req.Amount.leZero = false)
    (hP : s.payments req.TransactionID = some P) :
    ProcessPayment (recording inMemory) now req (s, log) =
      some ((some { TransactionID := P.TransactionID, UserID := P.UserID,
                    Amount := P.Amount, Status := P.Status,
                    Message := "Transaction already processed" }, none),
            (s, log ++ [RepoCall.Exists req.TransactionID,
                        RepoCall.GetByTransactionID req.TransactionID])) ∧
    ProcessPayment inMemory now req s =
      some ((some { TransactionID := P.TransactionID, UserID := P.UserID,
                    Amount := P.Amount, Status := P.Status,
                    Message := "Transaction already processed" }, none), s) := by
  have hv : validateRequest req = none := (validateRequest_eq_none req).2 ⟨hu, ht, ha⟩
  refine ⟨?_, ProcessPayment_duplicate now req s P hv hP⟩
  unfold ProcessPayment
  simp [hv, recording, inMemory, InMemoryPaymentRepository.Exists,
    InMemoryPaymentRepository.GetByTransactionID, hP]

/-- C3 (create path): a request that passes validation and whose TransactionID
is not in the in-memory store is answered with a nil error and an outcome with
the request's TransactionID, UserID and Amount, Status "completed" and Message
"Payment processed successfully"; afterwards the store maps the request's
TransactionID to a record with those fields and Status "completed", and every
other key of the store is unchanged. -/
theorem C3_create_path (s : InMemoryPaymentRepository) (now : Time) (req : PaymentRequest)
    (hu : req.UserID ≠ "") (ht : req.TransactionID ≠ "") (ha : req.Amount.leZero = false)
    (hP : s.payments req.TransactionID = none) :
    ∃ s1 : InMemoryPaymentRepository,
      ProcessPayment inMemory now req s =
        some ((some { TransactionID := req.TransactionID, UserID := req.UserID,
                      Amount := req.Amount, Status := "completed",
                      Message := "Payment processed successfully" }, none), s1) ∧
      s1.payments req.TransactionID =
        some { TransactionID := req.TransactionID, UserID := req.UserID,
               Amount := req.Amount, Status := "completed", CreatedAt := now } ∧
      ∀ k : String, k ≠ req.TransactionID → s1.payments k = s.payments k := by
  have hv : validateRequest req = none := (validateRequest_eq_none req).2 ⟨hu, ht, ha⟩
  refine ⟨_, ProcessPayment_create now req s hv hP, ?_, ?_⟩
  · simp [InMemoryPaymentRepository.Store, StatusCompleted]
  · intro k hk
    simp [InMemoryPaymentRepository.Store, hk]

/-- C3 at the request of the test and of the spec's scenario, on the empty store. -/
theorem C3_create_path_witness :
    ∃ s1 : InMemoryPaymentRepository,
      ProcessPayment inMemory ⟨1⟩ ⟨"user123", Float64.hundredAndHalf, "txn123"⟩
          NewInMemoryPaymentRepository =
        some ((some { TransactionID := "txn123", UserID := "user123",
                      Amount := Float64.hundredAndHalf, Status := "completed",
                      Message := "Payment processed successfully" }, none), s1) ∧
      s1.payments "txn123" =
        some { TransactionID := "txn123", UserID := "user123",
               Amount := Float64.hundredAndHalf, Status := "completed", CreatedAt := ⟨1⟩ } ∧
      ∀ k : String, k ≠ "txn123" → s1.payments k = NewInMemoryPaymentRepository.payments k :=
  C3_create_path NewInMemoryPaymentRepository ⟨1⟩ ⟨"user123", Float64.hundredAndHalf, "txn123"⟩
    (by decide) (by decide) (by decide) rfl

/-- C2 at a store holding the record of "txn123", replayed with another
UserID and another Amount: the outcome carries the stored fields. -/
theorem C2_duplicate_path_witness :
    ProcessPayment (recording inMemory) ⟨2⟩ ⟨"someone", Float64.oneCent, "txn123"⟩
        ((NewInMemoryPaymentRepository.Store
          ⟨"txn123", "user123", Float64.hundredAndHalf, "completed", ⟨1⟩⟩).2, []) =
      some ((some { TransactionID := "txn123", UserID := "user123",
                    Amount := Float64.hundredAndHalf, Status := "completed",
                    Message := "Transaction already processed" }, none),
            ((NewInMemoryPaymentRepository.Store
              ⟨"txn123", "user123", Float64.hundredAndHalf, "completed", ⟨1⟩⟩).2,
             [] ++ [RepoCall.Exists "txn123", RepoCall.GetByTransactionID "txn123"])) ∧
    ProcessPayment inMemory ⟨2⟩ ⟨"someone", Float64.oneCent, "txn123"⟩
        (NewInMemoryPaymentRepository.Store
          ⟨"txn123", "user123", Float64.hundredAndHalf, "completed", ⟨1⟩⟩).2 =
      some ((some { TransactionID := "txn123", UserID := "user123",
                    Amount := Float64.hundredAndHalf, Status := "completed",
                    Message := "Transaction already processed" }, none),
            (NewInMemoryPaymentRepository.Store
              ⟨"txn123", "user123", Float64.hundredAndHalf, "completed", ⟨1⟩⟩).2) :=
  C2_duplicate_path _ [] ⟨2⟩ ⟨"someone", Float64.oneCent, "txn123"⟩
    ⟨"txn123", "user123", Float64.hundredAndHalf, "completed", ⟨1⟩⟩
    (by decide) (by decide) (by decide) rfl

/-- C4 (validation order and acceptance): on every in-memory store the error
returned by ProcessPayment is ErrInvalidUserID if UserID is empty, otherwise
ErrInvalidTransaction if TransactionID is empty, otherwise ErrInvalidAmount if
Amount <= 0, and otherwise nil; so any request with non-empty identifiers and
Amount > 0 is accepted, Amount 0 is rejected, Amount 0.01 is accepted, and the
request with empty UserID, empty TransactionID and Amount -1 yields
ErrInvalidUserID. -/
theorem C4_validation_order :
    (∀ (s : InMemoryPaymentRepository) (now : Time) (req : PaymentRequest),
      (ProcessPayment inMemory now req s).map (fun r => r.1.2) =
        some (if req.UserID = "" then some GoError.ErrInvalidUserID
              else if req.TransactionID = "" then some GoError.ErrInvalidTransaction
              else if req.Amount.leZero = true then some GoError.ErrInvalidAmount
              else none)) ∧
    (∀ (s : InMemoryPaymentRepository) (now : Time) (req : PaymentRequest),
      req.UserID ≠ "" → req.TransactionID ≠ "" → req.Amount.gtZero = true →
      (ProcessPayment inMemory now req s).map (fun r => r.1.2) = some none) ∧
    (∀ (s : InMemoryPaymentRepository) (now : Time),
      (ProcessPayment inMemory now ⟨"user123", Float64.zero, "txn123"⟩ s).map (fun r => r.1.2) =
        some (some GoError.ErrInvalidAmount)) ∧
    (∀ (s : InMemoryPaymentRepository) (now : Time),
      (ProcessPayment inMemory now ⟨"user123", Float64.oneCent, "txn123"⟩ s).map
        (fun r => r.1.2) = some none) ∧
    (∀ (s : InMemoryPaymentRepository) (now : Time),
      (ProcessPayment inMemory now ⟨"", Float64.negOne, ""⟩ s).map (fun r => r.1.2) =
        some (some GoError.ErrInvalidUserID)) := by
  have main : ∀ (s : InMemoryPaymentRepository) (now : Time) (req : PaymentRequest),
      (ProcessPayment inMemory now req s).map (fun r => r.1.2) =
        some (if req.UserID = "" then some GoError.ErrInvalidUserID
              else if req.TransactionID = "" then some GoError.ErrInvalidTransaction
              else if req.Amount.leZero = true then some GoError.ErrInvalidAmount
              else none) := by
    intro s now req
    cases hv : validateRequest req with
    | some err =>
      rw [ProcessPayment_invalid inMemory now req s err hv]
      simp only [Option.map_some']
      rw [← hv]
      rfl
    | none =>
      have hfields := (validateRequest_eq_none req).1 hv
      have herr : (if req.UserID = "" then some GoError.ErrInvalidUserID
              else if req.TransactionID = "" then some GoError.ErrInvalidTransaction
              else if req.Amount.leZero = true then some GoError.ErrInvalidAmount
              else none) = none := by
        simp [hfields.1, hfields.2.1, hfields.2.2]
      rw [herr]
      cases hP : s.payments req.TransactionID with
      | none => rw [ProcessPayment_create now req s hv hP]; rfl
      | some P => rw [ProcessPayment_duplicate now req s P hv hP]; rfl
  refine ⟨main, ?_, ?_, ?_, ?_⟩
  · intro s now req hu ht ha
    rw [main s now req]
    simp [hu, ht, Float64.gtZero_not_leZero req.Amount ha]
  · intro s now
    rw [main s now]
    decide
  · intro s now
    rw [main s now]
    decide
  · intro s now
    rw [main s now]
    decide

/-- C5 (validation failure is side-effect free): a request that fails
validation (empty UserID, empty TransactionID or Amount <= 0) is answered, on
every store, with one of the three validation errors and a non-nil outcome
with Status "failed", Message the text of that error, and TransactionID,
UserID and Amount echoed from the request; no repository method is called and
the store is unchanged. -/
theorem C5_validation_failure (s : InMemoryPaymentRepository) (log : List RepoCall)
    (now : Time) (req : PaymentRequest)
    (h : req.UserID = "" ∨ req.TransactionID = "" ∨ req.Amount.leZero = true) :
    ∃ err : GoError,
      (err = GoError.ErrInvalidUserID ∨ err = GoError.ErrInvalidTransaction ∨
        err = GoError.ErrInvalidAmount) ∧
      ProcessPayment (recording inMemory) now req (s, log) =
        some ((some { TransactionID := req.TransactionID, UserID := req.UserID,
                      Amount := req.Amount, Status := "failed",
                      Message := err.Error }, some err), (s, log)) ∧
      ProcessPayment inMemory now req s =
        some ((some { TransactionID := req.TransactionID, UserID := req.UserID,
                      Amount := req.Amount, Status := "failed",
                      Message := err.Error }, some err), s) := by
  obtain ⟨err, hv, herr⟩ := validateRequest_of_invalid req h
  exact ⟨err, herr, ProcessPayment_invalid _ now req (s, log) err hv,
    ProcessPayment_invalid _ now req s err hv⟩

/-- C5 at the request with an empty TransactionID of the tests. -/
theorem C5_validation_failure_witness :
    ∃ err : GoError,
      (err = GoError.ErrInvalidUserID ∨ err = GoError.ErrInvalidTransaction ∨
        err = GoError.ErrInvalidAmount) ∧
      ProcessPayment (recording inMemory) ⟨1⟩ ⟨"user123", Float64.hundredAndHalf, ""⟩
          (NewInMemoryPaymentRepository, []) =
        some ((some { TransactionID := "", UserID := "user123",
                      Amount := Float64.hundredAndHalf, Status := "failed",
                      Message := err.Error }, some err), (NewInMemoryPaymentRepository, [])) ∧
      ProcessPayment inMemory ⟨1⟩ ⟨"user123", Float64.hundredAndHalf, ""⟩
          NewInMemoryPaymentRepository =
        some ((some { TransactionID := "", UserID := "user123",
                      Amount := Float64.hundredAndHalf, Status := "failed",
                      Message := err.Error }, some err), NewInMemoryPaymentRepository) :=
  C5_validation_failure NewInMemoryPaymentRepository [] ⟨1⟩
    ⟨"user123", Float64.hundredAndHalf, ""⟩ (Or.inr (Or.inl rfl))

/-- C1 (idempotence): for every in-memory store and every valid request R
(UserID non-empty, TransactionID non-empty, Amount > 0) the first
ProcessPayment(R) returns no error, and every one of any number of later
ProcessPayment(R) calls on the same store returns no error and an outcome with
the TransactionID, UserID, Amount and Status of the first call's outcome;
after each call the store holds exactly one record under R.TransactionID. -/
theorem C1_idempotence (s : InMemoryPaymentRepository) (now0 : Time) (R : PaymentRequest)
    (hu : R.UserID ≠ "") (ht : R.TransactionID ≠ "") (ha : R.Amount.gtZero = true) :
    ∃ (out0 : PaymentResponse) (s1 : InMemoryPaymentRepository),
      ProcessPayment inMemory now0 R s = some ((some out0, none), s1) ∧
      (∃! p, s1.payments R.TransactionID = some p) ∧
      ∀ nows : List Time, 1 ≤ nows.length →
        ∃ results : List ((Option PaymentResponse × Option GoError) × InMemoryPaymentRepository),
          runCalls inMemory (nows.map fun now => (now, R)) s1 = some results ∧
          results.length = nows.length ∧
          ∀ x ∈ results,
            x.1.2 = none ∧
            (∃ out : PaymentResponse, x.1.1 = some out ∧
              out.TransactionID = out0.TransactionID ∧ out.UserID = out0.UserID ∧
              out.Amount = out0.Amount ∧ out.Status = out0.Status) ∧
            (∃! p, x.2.payments R.TransactionID = some p) := by
  have hv : validateRequest R = none :=
    (validateRequest_eq_none R).2 ⟨hu, ht, Float64.gtZero_not_leZero R.Amount ha⟩
  cases hP : s.payments R.TransactionID with
  | some P =>
    refine ⟨_, s, ProcessPayment_duplicate now0 R s P hv hP,
      existsUnique_of_payments s _ P hP, ?_⟩
    intro nows _
    refine ⟨_, runCalls_replay R s P hv hP nows, by simp, ?_⟩
    intro x hx
    obtain ⟨_, _, rfl⟩ := List.mem_map.1 hx
    exact ⟨rfl, ⟨_, rfl, rfl, rfl, rfl, rfl⟩, existsUnique_of_payments s _ P hP⟩
  | none =>
    have hP1 : (s.Store ⟨R.TransactionID, R.UserID, R.Amount, StatusCompleted,
        now0⟩).2.payments R.TransactionID =
          some ⟨R.TransactionID, R.UserID, R.Amount, StatusCompleted, now0⟩ := by
      simp [InMemoryPaymentRepository.Store]
    refine ⟨_, _, ProcessPayment_create now0 R s hv hP,
      existsUnique_of_payments _ _ _ hP1, ?_⟩
    intro nows _
    refine ⟨_, runCalls_replay R _ _ hv hP1 nows, by simp, ?_⟩
    intro x hx
    obtain ⟨_, _, rfl⟩ := List.mem_map.1 hx
    exact ⟨rfl, ⟨_, rfl, rfl, rfl, rfl, rfl⟩, existsUnique_of_payments _ _ _ hP1⟩

/-- C1 at the request of the spec's scenario, first processed on the empty
store and then replayed three times. -/
theorem C1_idempotence_witness :
    ∃ (out0 : PaymentResponse) (s1 : InMemoryPaymentRepository),
      ProcessPayment inMemory ⟨1⟩ ⟨"user123", Float64.hundredAndHalf, "txn123"⟩
        NewInMemoryPaymentRepository = some ((some out0, none), s1) ∧
      (∃! p, s1.payments "txn123" = some p) ∧
      ∃ results : List ((Option PaymentResponse × Option GoError) × InMemoryPaymentRepository),
        runCalls inMemory
          ([⟨2⟩, ⟨3⟩, ⟨4⟩].map fun now =>
            (now, (⟨"user123", Float64.hundredAndHalf, "txn123"⟩ : PaymentRequest))) s1 =
          some results ∧
        results.length = 3 ∧
        ∀ x ∈ results,
          x.1.2 = none ∧
          (∃ out : PaymentResponse, x.1.1 = some out ∧
            out.TransactionID = out0.TransactionID ∧ out.UserID = out0.UserID ∧
            out.Amount = out0.Amount ∧ out.Status = out0.Status) ∧
          (∃! p, x.2.payments "txn123" = some p) := by
  obtain ⟨out0, s1, h1, h2, h3⟩ :=
    C1_idempotence NewInMemoryPaymentRepository ⟨1⟩
      ⟨"user123", Float64.hundredAndHalf, "txn123"⟩ (by decide) (by decide) (by decide)
  exact ⟨out0, s1, h1, h2, h3 [⟨2⟩, ⟨3⟩, ⟨4⟩] (by decide)⟩

/-- C6 (stored records are immutable): every finite sequence of ProcessPayment
calls with arbitrary requests, run one after another on an in-memory store,
runs to its end; a record held by the store before the sequence or after any
of its calls is held unchanged, under the same transaction ID, by the store
after every later call (no call removes or overwrites it), and no store of the
run holds two records under one transaction ID. -/
theorem C6_records_immutable (s : InMemoryPaymentRepository)
    (calls : List (Time × PaymentRequest)) :
    ∃ results : List ((Option PaymentResponse × Option GoError) × InMemoryPaymentRepository),
      runCalls inMemory calls s = some results ∧
      results.length = calls.length ∧
      (∀ x ∈ results, ∀ (k : String) (p : Payment),
        s.payments k = some p → x.2.payments k = some p) ∧
      (∀ (i j : Nat) (x y : (Option PaymentResponse × Option GoError) ×
          InMemoryPaymentRepository),
        i ≤ j → results[i]? = some x → results[j]? = some y →
        ∀ (k : String) (p : Payment), x.2.payments k = some p → y.2.payments k = some p) ∧
      (∀ x ∈ results, ∀ (k : String) (p q : Payment),
        x.2.payments k = some p → x.2.payments k = some q → p = q) := by
  obtain ⟨results, hrun, hlen, hfrom, hlater⟩ := runCalls_preserves calls s
  exact ⟨results, hrun, hlen, hfrom, hlater,
    fun _ _ _ _ _ hp hq => Option.some.inj (hp.symm.trans hq)⟩

/-- C8, the claim as stated fails: after the scenario request for "txn123"
has been processed and stored, a call with the same TransactionID, a
non-empty UserID and Amount 0 returns ErrInvalidAmount and a "failed" outcome,
not the stored outcome with a nil error. -/
theorem C8_counterexample :
    ∃ s1 : InMemoryPaymentRepository,
      ProcessPayment inMemory ⟨1⟩ ⟨"user123", Float64.hundredAndHalf, "txn123"⟩
          NewInMemoryPaymentRepository =
        some ((some { TransactionID := "txn123", UserID := "user123",
                      Amount := Float64.hundredAndHalf, Status := "completed",
                      Message := "Payment processed successfully" }, none), s1) ∧
      Float64.zero.leZero = true ∧
      ProcessPayment inMemory ⟨2⟩ ⟨"user123", Float64.zero, "txn123"⟩ s1 =
        some ((some { TransactionID := "txn123", UserID := "user123",
                      Amount := Float64.zero, Status := "failed",
                      Message := "amount must be greater than 0" },
               some GoError.ErrInvalidAmount), s1) :=
  ⟨_, ProcessPayment_create ⟨1⟩ ⟨"user123", Float64.hundredAndHalf, "txn123"⟩
        NewInMemoryPaymentRepository (by decide) rfl,
    by decide,
    ProcessPayment_invalid inMemory ⟨2⟩ ⟨"user123", Float64.zero, "txn123"⟩ _
      GoError.ErrInvalidAmount (by decide)⟩

/-- C8 as amended: after a call for a transaction ID has returned no error
(so that the ID is stored), a later call with the same TransactionID and a
non-empty UserID is validated first: with Amount <= 0 it returns
ErrInvalidAmount and a "failed" outcome echoing the request, and with any
other Amount, equal to the stored one or not, it returns a nil error and the
first call's TransactionID, UserID, Amount and Status with Message
"Transaction already processed"; in both cases the store is unchanged. -/
theorem C8_replay_validated_first (s0 s1 : InMemoryPaymentRepository) (now0 now : Time)
    (req0 req : PaymentRequest) (out0 : PaymentResponse)
    (h0 : ProcessPayment inMemory now0 req0 s0 = some ((some out0, none), s1))
    (hid : req.TransactionID = req0.TransactionID) (hu : req.UserID ≠ "") :
    ProcessPayment inMemory now req s1 =
      if req.Amount.leZero = true then
        some ((some { TransactionID := req.TransactionID, UserID := req.UserID,
                      Amount := req.Amount, Status := "failed",
                      Message := "amount must be greater than 0" },
               some GoError.ErrInvalidAmount), s1)
      else
        some ((some { TransactionID := out0.TransactionID, UserID := out0.UserID,
                      Amount := out0.Amount, Status := out0.Status,
                      Message := "Transaction already processed" }, none), s1) := by
  obtain ⟨hv0, P, hP, h1, h2, h3, h4⟩ := ProcessPayment_success_stored s0 s1 now0 req0 out0 h0
  have ht : req.TransactionID ≠ "" := by
    rw [hid]
    exact ((validateRequest_eq_none req0).1 hv0).2.1
  cases ha : req.Amount.leZero with
  | true =>
    have hv : validateRequest req = some GoError.ErrInvalidAmount := by
      simp [validateRequest, hu, ht, ha]
    rw [ProcessPayment_invalid inMemory now req s1 _ hv]
    rfl
  | false =>
    have hv : validateRequest req = none := (validateRequest_eq_none req).2 ⟨hu, ht, ha⟩
    rw [ProcessPayment_duplicate now req s1 P hv (hid ▸ hP), h1, h2, h3, h4]
    rfl

/-- C8 as amended, at the scenario request replayed with Amount 0.01. -/
theorem C8_replay_validated_first_witness :
    ProcessPayment inMemory ⟨2⟩ ⟨"user123", Float64.oneCent, "txn123"⟩
        (NewInMemoryPaymentRepository.Store
          ⟨"txn123", "user123", Float64.hundredAndHalf, StatusCompleted, ⟨1⟩⟩).2 =
      some ((some { TransactionID := "txn123", UserID := "user123",
                    Amount := Float64.hundredAndHalf, Status := "completed",
                    Message := "Transaction already processed" }, none),
            (NewInMemoryPaymentRepository.Store
              ⟨"txn123", "user123", Float64.hundredAndHalf, StatusCompleted, ⟨1⟩⟩).2) :=
  C8_replay_validated_first NewInMemoryPaymentRepository _ ⟨1⟩ ⟨2⟩
    ⟨"user123", Float64.hundredAndHalf, "txn123"⟩ ⟨"user123", Float64.oneCent, "txn123"⟩
    ⟨"txn123", "user123", Float64.hundredAndHalf, "completed", "Payment processed successfully"⟩
    (ProcessPayment_create ⟨1⟩ ⟨"user123", Float64.hundredAndHalf, "txn123"⟩
      NewInMemoryPaymentRepository (by decide) rfl)
    rfl (by decide)

/-- C9 (the in-memory store is a map keyed by transaction ID): starting from
NewInMemoryPaymentRepository, every Store call of a finite sequence returns a
nil error; afterwards Exists(id) is true iff some record of the sequence has
TransactionID id; GetByTransactionID(id) returns, with a nil error, the most
recently stored record with that TransactionID, or nil when there is none;
Exists(id) holds iff GetByTransactionID(id) returns a record; and a further
Store(r) returns nil and changes the answer of neither operation for an id
other than r.TransactionID. -/
theorem C9_store_is_map (records : List Payment) (id : String) :
    ((storeAll records NewInMemoryPaymentRepository).1.length = records.length ∧
      ∀ e ∈ (storeAll records NewInMemoryPaymentRepository).1, e = none) ∧
    ((storeAll records NewInMemoryPaymentRepository).2.Exists id = true ↔
      ∃ p ∈ records, p.TransactionID = id) ∧
    (storeAll records NewInMemoryPaymentRepository).2.GetByTransactionID id =
      (records.reverse.find? (fun p => decide (p.TransactionID = id)), none) ∧
    ((storeAll records NewInMemoryPaymentRepository).2.Exists id = true ↔
      ∃ p, ((storeAll records NewInMemoryPaymentRepository).2.GetByTransactionID id).1 =
        some p) ∧
    (∀ r : Payment,
      ((storeAll records NewInMemoryPaymentRepository).2.Store r).1 = none ∧
      (id ≠ r.TransactionID →
        ((storeAll records NewInMemoryPaymentRepository).2.Store r).2.Exists id =
          (storeAll records NewInMemoryPaymentRepository).2.Exists id ∧
        ((storeAll records NewInMemoryPaymentRepository).2.Store r).2.GetByTransactionID id =
          (storeAll records NewInMemoryPaymentRepository).2.GetByTransactionID id)) := by
  have hpay := storeAll_payments records NewInMemoryPaymentRepository id
  simp only [NewInMemoryPaymentRepository, Option.or_none] at hpay
  simp only [NewInMemoryPaymentRepository]
  refine ⟨storeAll_errors records _, ?_, ?_, ?_, ?_⟩
  · unfold InMemoryPaymentRepository.Exists
    rw [hpay]
    cases hf : records.reverse.find? (fun p => decide (p.TransactionID = id)) with
    | none =>
      simp only [Bool.false_eq_true, false_iff, not_exists, not_and]
      intro p hp hid
      have := List.find?_eq_none.1 hf p (List.mem_reverse.2 hp)
      simp [hid] at this
    | some q =>
      simp only [true_iff]
      have hq := List.find?_some hf
      exact ⟨q, List.mem_reverse.1 (List.mem_of_find?_eq_some hf), by simpa using hq⟩
  · unfold InMemoryPaymentRepository.GetByTransactionID
    rw [hpay]
    cases records.reverse.find? (fun p => decide (p.TransactionID = id)) <;> rfl
  · unfold InMemoryPaymentRepository.Exists InMemoryPaymentRepository.GetByTransactionID
    cases (storeAll records { payments := fun _ => none }).2.payments id <;> simp
  · intro r
    refine ⟨rfl, ?_⟩
    intro hne
    simp [InMemoryPaymentRepository.Exists, InMemoryPaymentRepository.GetByTransactionID,
      InMemoryPaymentRepository.Store, hne]

/-- C7, the interleaving on which the claim fails: two calls for "txn123" with
the same valid payload start on the empty store and both run `Exists` before
either runs `Store` (schedule 0, 1, 0, 1). Both calls take the create path and
return "Payment processed successfully", none returns "Transaction already
processed", and the second `Store` replaces the record written by the first
(CreatedAt 1 after three steps, CreatedAt 2 at the end). Run one after the
other (schedule 0, 0, 1, 1) the same calls give one success and one replay. -/
theorem C7_race_double_create :
    (interleave inMemory [0, 1, 0, 1]
        ([Call.entry ⟨1⟩ ⟨"user123", Float64.hundredAndHalf, "txn123"⟩,
          Call.entry ⟨2⟩ ⟨"user123", Float64.hundredAndHalf, "txn123"⟩],
         NewInMemoryPaymentRepository)).1 =
      [Call.returned (some { TransactionID := "txn123", UserID := "user123",
                             Amount := Float64.hundredAndHalf, Status := "completed",
                             Message := "Payment processed successfully" }) none,
       Call.returned (some { TransactionID := "txn123", UserID := "user123",
                             Amount := Float64.hundredAndHalf, Status := "completed",
                             Message := "Payment processed successfully" }) none] ∧
    (interleave inMemory [0, 1, 0]
        ([Call.entry ⟨1⟩ ⟨"user123", Float64.hundredAndHalf, "txn123"⟩,
          Call.entry ⟨2⟩ ⟨"user123", Float64.hundredAndHalf, "txn123"⟩],
         NewInMemoryPaymentRepository)).2.payments "txn123" =
      some ⟨"txn123", "user123", Float64.hundredAndHalf, "completed", ⟨1⟩⟩ ∧
    (interleave inMemory [0, 1, 0, 1]
        ([Call.entry ⟨1⟩ ⟨"user123", Float64.hundredAndHalf, "txn123"⟩,
          Call.entry ⟨2⟩ ⟨"user123", Float64.hundredAndHalf, "txn123"⟩],
         NewInMemoryPaymentRepository)).2.payments "txn123" =
      some ⟨"txn123", "user123", Float64.hundredAndHalf, "completed", ⟨2⟩⟩ ∧
    ((interleave inMemory [0, 0, 1, 1]
        ([Call.entry ⟨1⟩ ⟨"user123", Float64.hundredAndHalf, "txn123"⟩,
          Call.entry ⟨2⟩ ⟨"user123", Float64.hundredAndHalf, "txn123"⟩],
         NewInMemoryPaymentRepository)).1.map Call.message) =
      [some "Payment processed successfully", some "Transaction already processed"] := by
  refine ⟨?_, ?_, ?_, ?_⟩ <;> decide

/-- C10, the input on which the claim fails: the request with UserID
"user123", TransactionID "txn123" and Amount NaN passes validation on the
empty store (the comparison NaN <= 0 is false), is answered "completed" with a
nil error, and leaves under "txn123" a record whose Amount is NaN, for which
Amount > 0 is false. -/
theorem C10_nan_amount_stored :
    ∃ s1 : InMemoryPaymentRepository,
      runCalls inMemory [(⟨1⟩, ⟨"user123", Float64.nan, "txn123"⟩)]
          NewInMemoryPaymentRepository =
        some [((some { TransactionID := "txn123", UserID := "user123",
                       Amount := Float64.nan, Status := "completed",
                       Message := "Payment processed successfully" }, none), s1)] ∧
      s1.payments "txn123" = some ⟨"txn123", "user123", Float64.nan, "completed", ⟨1⟩⟩ ∧
      Float64.nan.isNaN = true ∧ Float64.nan.leZero = false ∧ Float64.nan.gtZero = false := by
  refine ⟨(NewInMemoryPaymentRepository.Store
    ⟨"txn123", "user123", Float64.nan, StatusCompleted, ⟨1⟩⟩).2, ?_, ?_,
    by decide, by decide, by decide⟩
  · simp only [runCalls]
    rw [ProcessPayment_create ⟨1⟩ ⟨"user123", Float64.nan, "txn123"⟩
      NewInMemoryPaymentRepository (by decide) rfl]
    rfl
  · decide

/-! ## The gateway and the shape of every outcome -/

theorem Exists_true_GetByTransactionID (s : InMemoryPaymentRepository) (id : String)
    (h : s.Exists id = true) : ∃ p : Payment, s.GetByTransactionID id = (some p, none) := by
  unfold InMemoryPaymentRepository.Exists at h
  unfold InMemoryPaymentRepository.GetByTransactionID
  cases hP : s.payments id with
  | none => simp [hP] at h
  | some p => exact ⟨p, rfl⟩

theorem ProcessPayment_outcome (s : InMemoryPaymentRepository) (now : Time)
    (req : PaymentRequest) (hs : WellFormedStore s) :
    ∃ (out : PaymentResponse) (err : Option GoError) (s1 : InMemoryPaymentRepository),
      ProcessPayment inMemory now req s = some ((some out, err), s1) ∧
      (out.Status = "completed" ∨ out.Status = "failed") ∧ WellFormedStore s1 := by
  cases hv : validateRequest req with
  | some err =>
    exact ⟨_, _, s, ProcessPayment_invalid inMemory now req s err hv, Or.inr rfl, hs⟩
  | none =>
    cases hP : s.payments req.TransactionID with
    | some P =>
      exact ⟨_, _, s, ProcessPayment_duplicate now req s P hv hP,
        Or.inl (hs _ P hP).1, hs⟩
    | none =>
      have hstep := ProcessPayment_create now req s hv hP
      exact ⟨_, _, _, hstep, Or.inl rfl, ProcessPayment_wellFormed s _ now req _ hs hstep⟩

theorem runCalls_outcomes (calls : List (Time × PaymentRequest)) :
    ∀ s : InMemoryPaymentRepository, WellFormedStore s →
      ∃ results : List ((Option PaymentResponse × Option GoError) × InMemoryPaymentRepository),
        runCalls inMemory calls s = some results ∧
        results.length = calls.length ∧
        ∀ x ∈ results,
          (∃ out : PaymentResponse, x.1.1 = some out ∧
            (out.Status = "completed" ∨ out.Status = "failed")) ∧
          WellFormedStore x.2 := by
  induction calls with
  | nil =>
    intro s _
    exact ⟨[], rfl, rfl, by simp⟩
  | cons c rest ih =>
    intro s hs
    obtain ⟨now, req⟩ := c
    obtain ⟨out, err, s1, hstep, hstatus, hs1⟩ := ProcessPayment_outcome s now req hs
    obtain ⟨results, hrun, hlen, hall⟩ := ih s1 hs1
    refine ⟨((some out, err), s1) :: results, ?_, by simp [hlen], ?_⟩
    · simp only [runCalls, hstep, hrun]
    · intro x hx
      rcases List.mem_cons.1 hx with rfl | hx
      · exact ⟨⟨out, rfl, hstatus⟩, hs1⟩
      · exact hall x hx

theorem WellFormedStore_new : WellFormedStore NewInMemoryPaymentRepository := by
  intro k p h
  simp [NewInMemoryPaymentRepository] at h

/-- C11 (gateway status mapping): for a successfully decoded request on which
the use case returns, the handler returns too, and the HTTP status it writes
depends on the use case's error only: 200 when the error is nil, 400 when it
is ErrInvalidAmount, ErrInvalidUserID or ErrInvalidTransaction, 500 for every
other error; in all three cases the body written is the encoding of the
outcome the use case returned. -/
theorem C11_gateway_status {σ : Type} (h : PaymentHandler σ)
    (encode : Option PaymentResponse → Option String) (req : PaymentRequest)
    (w : ResponseWriter) (s s1 : σ) (response : Option PaymentResponse)
    (err : Option GoError)
    (hw : w.status = none)
    (huc : h.paymentUseCase req s = some ((response, err), s1)) :
    ∃ w1 : ResponseWriter,
      h.ProcessPayment encode (some req) w s = some (w1, s1) ∧
      w1.status =
        some (if err = none then 200
              else if err = some GoError.ErrInvalidAmount ∨
                  err = some GoError.ErrInvalidUserID ∨
                  err = some GoError.ErrInvalidTransaction then 400
              else 500) ∧
      w1.body = w.body ++ (encode response).getD "" := by
  unfold PaymentHandler.ProcessPayment
  simp only [huc]
  cases hb : encode response with
  | none =>
    refine ⟨_, rfl, ?_, ?_⟩
    · cases err with
      | none => simp [ResponseWriter.HeaderSet, ResponseWriter.WriteHeader, hw, StatusOK]
      | some e =>
        cases e <;>
          simp [ResponseWriter.HeaderSet, ResponseWriter.WriteHeader, hw, StatusBadRequest,
            StatusInternalServerError]
    · cases err with
      | none => simp [ResponseWriter.HeaderSet, ResponseWriter.WriteHeader, hw]
      | some e => cases e <;> simp [ResponseWriter.HeaderSet, ResponseWriter.WriteHeader, hw]
  | some bytes =>
    refine ⟨_, rfl, ?_, ?_⟩
    · cases err with
      | none =>
        simp [ResponseWriter.Write, ResponseWriter.HeaderSet, ResponseWriter.WriteHeader, hw,
          StatusOK]
      | some e =>
        cases e <;>
          simp [ResponseWriter.Write, ResponseWriter.HeaderSet, ResponseWriter.WriteHeader, hw,
            StatusBadRequest, StatusInternalServerError]
    · cases err with
      | none =>
        simp [ResponseWriter.Write, ResponseWriter.HeaderSet, ResponseWriter.WriteHeader, hw]
      | some e =>
        cases e <;>
          simp [ResponseWriter.Write, ResponseWriter.HeaderSet, ResponseWriter.WriteHeader, hw]

/-- C11 at the handler of `main` on the empty store, for the request with an
empty TransactionID of the tests: status 400, and the body is the encoding of
the failed outcome (here an encoder that writes the outcome's message). -/
theorem C11_gateway_status_witness :
    ∃ w1 : ResponseWriter,
      (inMemoryHandler ⟨1⟩).ProcessPayment (Option.map PaymentResponse.Message)
          (some ⟨"user123", Float64.hundredAndHalf, ""⟩) ⟨fun _ => none, none, ""⟩
          NewInMemoryPaymentRepository =
        some (w1, NewInMemoryPaymentRepository) ∧
      w1.status = some 400 ∧
      w1.body = "transaction ID cannot be empty" := by
  obtain ⟨w1, h1, h2, h3⟩ :=
    C11_gateway_status (inMemoryHandler ⟨1⟩) (Option.map PaymentResponse.Message)
      ⟨"user123", Float64.hundredAndHalf, ""⟩ ⟨fun _ => none, none, ""⟩
      NewInMemoryPaymentRepository NewInMemoryPaymentRepository
      (some ⟨"", "user123", Float64.hundredAndHalf, "failed", "transaction ID cannot be empty"⟩)
      (some GoError.ErrInvalidTransaction) rfl
      (ProcessPayment_invalid inMemory ⟨1⟩ ⟨"user123", Float64.hundredAndHalf, ""⟩
        NewInMemoryPaymentRepository GoError.ErrInvalidTransaction (by decide))
  refine ⟨w1, h1, ?_, ?_⟩
  · rw [h2]
    decide
  · rw [h3]
    decide

/-- C12 (every call returns a well-formed outcome, no nil dereference): in
every in-memory store, so in every store reached by ProcessPayment calls, an
`Exists(id)` that is true is followed by a `GetByTransactionID(id)` returning
a non-nil record and a nil error; and every call of every finite sequence of
ProcessPayment calls run one after another from the empty store returns (it
does not panic on a nil record) a non-nil outcome whose Status is "completed"
or "failed". -/
theorem C12_wellformed_outcome (calls : List (Time × PaymentRequest)) :
    (∀ (s : InMemoryPaymentRepository) (id : String), s.Exists id = true →
      ∃ p : Payment, s.GetByTransactionID id = (some p, none)) ∧
    ∃ results : List ((Option PaymentResponse × Option GoError) × InMemoryPaymentRepository),
      runCalls inMemory calls NewInMemoryPaymentRepository = some results ∧
      results.length = calls.length ∧
      ∀ x ∈ results,
        ∃ out : PaymentResponse, x.1.1 = some out ∧
          (out.Status = "completed" ∨ out.Status = "failed") := by
  refine ⟨Exists_true_GetByTransactionID, ?_⟩
  obtain ⟨results, hrun, hlen, hall⟩ :=
    runCalls_outcomes calls NewInMemoryPaymentRepository WellFormedStore_new
  exact ⟨results, hrun, hlen, fun x hx => (hall x hx).1⟩

end PaymentService
